import Mathlib

/-!
Verification of the IPP message codec and PWG-Raster codec of this
repository.  Byte streams are modelled as `List Nat` (each element a byte
value `0..255`).  Rust functions that can panic are modelled with the
`POutcome` type whose `crash` constructor stands for a Rust panic (debug
profile semantics: arithmetic overflow panics); `err` carries the `IPPError`
the function returns; `ok` carries the success value.  Machine integers are
modelled as `Nat`/`Int` with explicit two's-complement conversions.
-/

namespace IppPrint

/-- The three error kinds of the IPP codec (`enum IPPError` in main.rs);
the payload of the IO variant is irrelevant to the claims and dropped. -/
inductive IPPError where
  | ioError
  | protocolError
  | valueFormatError
deriving DecidableEq

/-- Result of running a fallible Rust function: `crash` models a Rust
panic, `err` a returned `Err`, `ok` a returned `Ok`. -/
inductive POutcome (α : Type) where
  | crash : POutcome α
  | err : IPPError → POutcome α
  | ok : α → POutcome α
deriving DecidableEq

/-- Big-endian two-byte encoding of a 16-bit value. -/
def u16be (n : Nat) : List Nat := [n / 256 % 256, n % 256]

/-- `i16::from_be_bytes`: two bytes to a signed 16-bit integer. -/
def i16_of_bytes (b0 b1 : Nat) : Int :=
  let v : Nat := b0 * 256 + b1
  if v < 32768 then (v : Int) else (v : Int) - 65536

/-- `i32::from_be_bytes`: four bytes to a signed 32-bit integer. -/
def i32_of_bytes (b0 b1 b2 b3 : Nat) : Int :=
  let v : Nat := ((b0 * 256 + b1) * 256 + b2) * 256 + b3
  if v < 2 ^ 31 then (v : Int) else (v : Int) - 2 ^ 32

/-- A byte reinterpreted as `i8` (`b as i8`). -/
def i8_of_byte (b : Nat) : Int :=
  if b < 128 then (b : Int) else (b : Int) - 256

/-- An `i8`/`i16` value cast `as u8` (wrapping two's complement). -/
def u8_of_int (v : Int) : Nat := (v % 256).toNat

/-- An `i16` value cast `as usize` on a 64-bit target (wrapping). -/
def usize_of_i16 (v : Int) : Nat := (v % (2 ^ 64 : Int)).toNat

/-- A signed value cast `as u16` (wrapping). -/
def u16_of_int (v : Int) : Nat := (v % 65536).toNat

/-- Big-endian encoding of an `i16` value (`to_be_bytes`). -/
def i16be (v : Int) : List Nat := u16be (u16_of_int v)

/-- Big-endian encoding of an `i32` value (`to_be_bytes`). -/
def i32be (v : Int) : List Nat :=
  let n := (v % (2 ^ 32 : Int)).toNat
  [n / 2 ^ 24 % 256, n / 2 ^ 16 % 256, n / 256 % 256, n % 256]

/-- `usize` addition with the debug-profile overflow check: `none` means
the addition panics. -/
def checked_add (a b : Nat) : Option Nat :=
  if a + b < 2 ^ 64 then some (a + b) else none

/-- Is this byte a UTF-8 continuation byte (`0x80..=0xBF`)? -/
def is_cont (c : Nat) : Bool := 0x80 ≤ c && c < 0xC0

/-- Validity of a byte sequence as UTF-8, exactly the success condition of
Rust's `String::from_utf8` (RFC 3629: no overlong forms, no surrogates,
code points at most `U+10FFFF`). -/
def isValidUtf8 : List Nat → Bool
  | [] => true
  | b :: rest =>
    if b < 0x80 then isValidUtf8 rest
    else if b < 0xC2 then false
    else if b < 0xE0 then
      match rest with
      | c1 :: r => is_cont c1 && isValidUtf8 r
      | [] => false
    else if b < 0xF0 then
      match rest with
      | c1 :: c2 :: r =>
        (if b = 0xE0 then 0xA0 ≤ c1 && c1 < 0xC0
         else if b = 0xED then 0x80 ≤ c1 && c1 < 0xA0
         else is_cont c1) && is_cont c2 && isValidUtf8 r
      | _ => false
    else if b < 0xF5 then
      match rest with
      | c1 :: c2 :: c3 :: r =>
        (if b = 0xF0 then 0x90 ≤ c1 && c1 < 0xC0
         else if b = 0xF4 then 0x80 ≤ c1 && c1 < 0x90
         else is_cont c1) && is_cont c2 && is_cont c3 && isValidUtf8 r
      | _ => false
    else false

/-- `std::io::Read::read_exact` over an in-memory byte slice: reads `n`
bytes or fails (yielding an IO error) when fewer remain. -/
def read_exact (n : Nat) (input : List Nat) : Option (List Nat × List Nat) :=
  if n ≤ input.length then some (input.take n, input.drop n) else none

/-- `enum DelimiterOrValueTag` of main.rs. -/
inductive DelimiterOrValueTag where
  | OperationAttributesTag
  | JobAttributesTag
  | EndOfAttributesTag
  | PrinterAttributesTag
  | UnsupportedAttributesTag
  | Unsupported
  | Unknown
  | NoValue
  | Integer
  | Boolean
  | Enum
  | OctetStringUnspecified
  | DateTime
  | Resolution
  | RangeOfInteger
  | BegCollection
  | TextWithLanguage
  | NameWithLanguage
  | EndCollection
  | TextWithoutLanguage
  | NameWithoutLanguage
  | Keyword
  | Uri
  | UriScheme
  | Charset
  | NaturalLanguage
  | MimeMediaType
  | MemberAttrName
deriving DecidableEq

/-- The discriminant byte of each tag (the values of the Rust enum). -/
def DelimiterOrValueTag.toByte : DelimiterOrValueTag → Nat
  | .OperationAttributesTag => 0x01
  | .JobAttributesTag => 0x02
  | .EndOfAttributesTag => 0x03
  | .PrinterAttributesTag => 0x04
  | .UnsupportedAttributesTag => 0x05
  | .Unsupported => 0x10
  | .Unknown => 0x12
  | .NoValue => 0x13
  | .Integer => 0x21
  | .Boolean => 0x22
  | .Enum => 0x23
  | .OctetStringUnspecified => 0x30
  | .DateTime => 0x31
  | .Resolution => 0x32
  | .RangeOfInteger => 0x33
  | .BegCollection => 0x34
  | .TextWithLanguage => 0x35
  | .NameWithLanguage => 0x36
  | .EndCollection => 0x37
  | .TextWithoutLanguage => 0x41
  | .NameWithoutLanguage => 0x42
  | .Keyword => 0x44
  | .Uri => 0x45
  | .UriScheme => 0x46
  | .Charset => 0x47
  | .NaturalLanguage => 0x48
  | .MimeMediaType => 0x49
  | .MemberAttrName => 0x4a

/-- `FromPrimitive::from_u8` for `DelimiterOrValueTag`. -/
def tag_from_byte : Nat → Option DelimiterOrValueTag
  | 0x01 => some .OperationAttributesTag
  | 0x02 => some .JobAttributesTag
  | 0x03 => some .EndOfAttributesTag
  | 0x04 => some .PrinterAttributesTag
  | 0x05 => some .UnsupportedAttributesTag
  | 0x10 => some .Unsupported
  | 0x12 => some .Unknown
  | 0x13 => some .NoValue
  | 0x21 => some .Integer
  | 0x22 => some .Boolean
  | 0x23 => some .Enum
  | 0x30 => some .OctetStringUnspecified
  | 0x31 => some .DateTime
  | 0x32 => some .Resolution
  | 0x33 => some .RangeOfInteger
  | 0x34 => some .BegCollection
  | 0x35 => some .TextWithLanguage
  | 0x36 => some .NameWithLanguage
  | 0x37 => some .EndCollection
  | 0x41 => some .TextWithoutLanguage
  | 0x42 => some .NameWithoutLanguage
  | 0x44 => some .Keyword
  | 0x45 => some .Uri
  | 0x46 => some .UriScheme
  | 0x47 => some .Charset
  | 0x48 => some .NaturalLanguage
  | 0x49 => some .MimeMediaType
  | 0x4a => some .MemberAttrName
  | _ => none

/-- `enum StatusCode` of main.rs (including the source's literal values
`0x045` for ClientErrorTimeout and `0x04012` for
ClientErrorDocumentAccessError). -/
inductive StatusCode where
  | SuccessfulOk
  | SuccessfulOkIgnoredOrSubstitutedAttributes
  | SuccessfulOkConflictingAttributes
  | ClientErrorBadRequest
  | ClientErrorForbidden
  | ClientErrorNotAuthenticated
  | ClientErrorNotAuthorized
  | ClientErrorNotPossible
  | ClientErrorTimeout
  | ClientErrorNotFound
  | ClientErrorGone
  | ClientErrorRequestEntityTooLarge
  | ClientErrorRequestValueTooLong
  | ClientErrorDocumentFormatNotSupported
  | ClientErrorAttributesOrValuesNotSupported
  | ClientErrorUriSchemeNotSupported
  | ClientErrorCharsetNotSupported
  | ClientErrorConflictingAttributes
  | ClientErrorCompressionNotSupported
  | ClientErrorCompressionError
  | ClientErrorDocumentFormatError
  | ClientErrorDocumentAccessError
  | ServerErrorInternalError
  | ServerErrorOperationNotSupported
  | ServerErrorServiceUnavailable
  | ServerErrorVersionNotSupported
  | ServerErrorDeviceError
  | ServerErrorTemporaryError
  | ServerErrorNotAcceptingJobs
  | ServerErrorBusy
  | ServerErrorJobCanceled
  | ServerErrorMultipleDocumentJobsNotSupported
deriving DecidableEq

/-- `FromPrimitive::from_i16` for `StatusCode`, with the discriminants
exactly as written in the source. -/
def statusCode_from_i16 (v : Int) : Option StatusCode :=
  if v = 0x0000 then some .SuccessfulOk
  else if v = 0x0001 then some .SuccessfulOkIgnoredOrSubstitutedAttributes
  else if v = 0x0002 then some .SuccessfulOkConflictingAttributes
  else if v = 0x0400 then some .ClientErrorBadRequest
  else if v = 0x0401 then some .ClientErrorForbidden
  else if v = 0x0402 then some .ClientErrorNotAuthenticated
  else if v = 0x0403 then some .ClientErrorNotAuthorized
  else if v = 0x0404 then some .ClientErrorNotPossible
  else if v = 0x045 then some .ClientErrorTimeout
  else if v = 0x0406 then some .ClientErrorNotFound
  else if v = 0x0407 then some .ClientErrorGone
  else if v = 0x0408 then some .ClientErrorRequestEntityTooLarge
  else if v = 0x0409 then some .ClientErrorRequestValueTooLong
  else if v = 0x040a then some .ClientErrorDocumentFormatNotSupported
  else if v = 0x040b then some .ClientErrorAttributesOrValuesNotSupported
  else if v = 0x040c then some .ClientErrorUriSchemeNotSupported
  else if v = 0x040d then some .ClientErrorCharsetNotSupported
  else if v = 0x040e then some .ClientErrorConflictingAttributes
  else if v = 0x040f then some .ClientErrorCompressionNotSupported
  else if v = 0x0410 then some .ClientErrorCompressionError
  else if v = 0x0411 then some .ClientErrorDocumentFormatError
  else if v = 0x4012 then some .ClientErrorDocumentAccessError
  else if v = 0x0500 then some .ServerErrorInternalError
  else if v = 0x0501 then some .ServerErrorOperationNotSupported
  else if v = 0x0502 then some .ServerErrorServiceUnavailable
  else if v = 0x0503 then some .ServerErrorVersionNotSupported
  else if v = 0x0504 then some .ServerErrorDeviceError
  else if v = 0x0505 then some .ServerErrorTemporaryError
  else if v = 0x0506 then some .ServerErrorNotAcceptingJobs
  else if v = 0x0507 then some .ServerErrorBusy
  else if v = 0x0508 then some .ServerErrorJobCanceled
  else if v = 0x0509 then some .ServerErrorMultipleDocumentJobsNotSupported
  else none

/-- `enum PrinterOperation` of main.rs. -/
inductive PrinterOperation where
  | PrintJob
  | PrintURI
  | ValidateJob
  | CreateJob
  | SendDocument
  | SendURI
  | CancelJob
  | GetJobAttributes
  | GetJobs
  | GetPrinterAttributes
  | HoldJob
  | ReleaseJob
  | RestartJob
  | PausePrinter
  | ResumePrinter
  | PurgeJobs
deriving DecidableEq

/-- The discriminants of `PrinterOperation`. -/
def PrinterOperation.code : PrinterOperation → Int
  | .PrintJob => 0x0002
  | .PrintURI => 0x0003
  | .ValidateJob => 0x0004
  | .CreateJob => 0x0005
  | .SendDocument => 0x0006
  | .SendURI => 0x0007
  | .CancelJob => 0x0008
  | .GetJobAttributes => 0x0009
  | .GetJobs => 0x000a
  | .GetPrinterAttributes => 0x000b
  | .HoldJob => 0x000c
  | .ReleaseJob => 0x000d
  | .RestartJob => 0x000e
  | .PausePrinter => 0x0010
  | .ResumePrinter => 0x0011
  | .PurgeJobs => 0x0012

/-- `struct StringWithLanguage`; Rust `String`s are modelled as their
UTF-8 byte sequences. -/
structure StringWithLanguage where
  lang : List Nat
  string : List Nat
deriving DecidableEq

/-- `struct DateTime` of main.rs; the `direction_from_utc` char is kept
as its byte value. -/
structure DateTimeValue where
  year : Nat
  month : Nat
  day : Nat
  hour : Nat
  minutes : Nat
  seconds : Nat
  deci_seconds : Nat
  direction_from_utc : Nat
  hours_from_utc : Nat
  minutes_from_utc : Nat
deriving DecidableEq

/-- `struct Resolution` of main.rs. -/
structure ResolutionValue where
  resolution_cross_feed : Int
  resolution_feed : Int
  units : Int
deriving DecidableEq

/-- `enum AttributeValue` of main.rs.  The `CollectionAttribute` hash map
is modelled as an insertion-ordered association list. -/
inductive AttributeValue where
  | Unsupported (val : List Nat)
  | Unknown (val : List Nat)
  | NoValue
  | Integer (val : Int)
  | Boolean (val : Bool)
  | Enum (val : Int)
  | OctetStringUnspecified (val : List Nat)
  | DateTime (val : DateTimeValue)
  | Resolution (val : ResolutionValue)
  | RangeOfInteger (start stop : Int)
  | BegCollection
  | TextWithLanguage (val : StringWithLanguage)
  | NameWithLanguage (val : StringWithLanguage)
  | EndCollection
  | TextWithoutLanguage (val : List Nat)
  | NameWithoutLanguage (val : List Nat)
  | Keyword (val : List Nat)
  | Uri (val : List Nat)
  | UriScheme (val : List Nat)
  | Charset (val : List Nat)
  | NaturalLanguage (val : List Nat)
  | MimeMediaType (val : List Nat)
  | MemberAttrName (val : List Nat)
  | CollectionAttribute (entries : List (List Nat × AttributeValue))
  | VectorAttribute (vals : List AttributeValue)

/-- `StringWithLanguage::parse_buffer`.  Mirrors the source exactly: the
two length checks use `<` only (so trailing bytes are accepted), the
`usize` sums are overflow-checked (debug profile), and the two
`String::from_utf8(...).unwrap()` calls panic (`crash`) on invalid
UTF-8. -/
def StringWithLanguage.parse_buffer (buf : List Nat) : POutcome StringWithLanguage :=
  let len := buf.length
  if len < 2 then .err .valueFormatError
  else
    let lang_len := usize_of_i16 (i16_of_bytes (buf.getD 0 0) (buf.getD 1 0))
    match checked_add 2 lang_len with
    | none => .crash
    | some s1 =>
      match checked_add s1 2 with
      | none => .crash
      | some s2 =>
        if len < s2 then .err .valueFormatError
        else
          let str_len :=
            usize_of_i16 (i16_of_bytes (buf.getD (2 + lang_len) 0) (buf.getD (2 + lang_len + 1) 0))
          match checked_add s2 str_len with
          | none => .crash
          | some s3 =>
            if len < s3 then .err .valueFormatError
            else
              let langB := (buf.drop 2).take lang_len
              let strB := (buf.drop (2 + lang_len + 2)).take str_len
              if isValidUtf8 langB then
                if isValidUtf8 strB then .ok ⟨langB, strB⟩
                else .crash
              else .crash

/-- `DateTime::parse_buffer`. -/
def DateTimeValue.parse_buffer (buf : List Nat) : POutcome DateTimeValue :=
  if buf.length ≠ 11 then .err .valueFormatError
  else
    .ok ⟨(buf.getD 0 0) * 256 + buf.getD 1 0, buf.getD 2 0, buf.getD 3 0, buf.getD 4 0,
      buf.getD 5 0, buf.getD 6 0, buf.getD 7 0, buf.getD 8 0, buf.getD 9 0, buf.getD 10 0⟩

/-- `Resolution::parse_buffer`. -/
def ResolutionValue.parse_buffer (buf : List Nat) : POutcome ResolutionValue :=
  if buf.length ≠ 9 then .err .valueFormatError
  else
    .ok ⟨i32_of_bytes (buf.getD 0 0) (buf.getD 1 0) (buf.getD 2 0) (buf.getD 3 0),
      i32_of_bytes (buf.getD 4 0) (buf.getD 5 0) (buf.getD 6 0) (buf.getD 7 0),
      i8_of_byte (buf.getD 8 0)⟩

/-- Helper mirroring `String::from_utf8` used with a `match` in the
source: invalid UTF-8 becomes a ValueFormatError. -/
def utf8_string (buf : List Nat) (mk : List Nat → AttributeValue) : POutcome AttributeValue :=
  if isValidUtf8 buf then .ok (mk buf) else .err .valueFormatError

/-- `IPPResponse::decode_attribute_value`. -/
def decode_attribute_value (value_type : DelimiterOrValueTag) (buf : List Nat) :
    POutcome AttributeValue :=
  match value_type with
  | .Unsupported => .ok (.Unsupported buf)
  | .Unknown => .ok (.Unknown buf)
  | .NoValue => if buf.isEmpty then .ok .NoValue else .err .protocolError
  | .Integer =>
    if buf.length = 4 then
      .ok (.Integer (i32_of_bytes (buf.getD 0 0) (buf.getD 1 0) (buf.getD 2 0) (buf.getD 3 0)))
    else .err .protocolError
  | .Boolean =>
    if buf.length = 1 then .ok (.Boolean (buf.getD 0 0 == 1)) else .err .protocolError
  | .Enum =>
    if buf.length = 4 then
      .ok (.Enum (i32_of_bytes (buf.getD 0 0) (buf.getD 1 0) (buf.getD 2 0) (buf.getD 3 0)))
    else .err .protocolError
  | .OctetStringUnspecified => utf8_string buf .OctetStringUnspecified
  | .DateTime =>
    match DateTimeValue.parse_buffer buf with
    | .crash => .crash
    | .err e => .err e
    | .ok v => .ok (.DateTime v)
  | .Resolution =>
    match ResolutionValue.parse_buffer buf with
    | .crash => .crash
    | .err e => .err e
    | .ok v => .ok (.Resolution v)
  | .RangeOfInteger =>
    if buf.length ≠ 8 then .err .valueFormatError
    else
      .ok (.RangeOfInteger
        (i32_of_bytes (buf.getD 0 0) (buf.getD 1 0) (buf.getD 2 0) (buf.getD 3 0))
        (i32_of_bytes (buf.getD 4 0) (buf.getD 5 0) (buf.getD 6 0) (buf.getD 7 0)))
  | .BegCollection => if buf.isEmpty then .ok .BegCollection else .err .protocolError
  | .TextWithLanguage =>
    match StringWithLanguage.parse_buffer buf with
    | .crash => .crash
    | .err e => .err e
    | .ok v => .ok (.TextWithLanguage v)
  | .NameWithLanguage =>
    match StringWithLanguage.parse_buffer buf with
    | .crash => .crash
    | .err e => .err e
    | .ok v => .ok (.NameWithLanguage v)
  | .EndCollection => if buf.isEmpty then .ok .EndCollection else .err .protocolError
  | .TextWithoutLanguage => utf8_string buf .TextWithoutLanguage
  | .NameWithoutLanguage => utf8_string buf .NameWithoutLanguage
  | .Keyword => utf8_string buf .Keyword
  | .Uri => utf8_string buf .Uri
  | .UriScheme => utf8_string buf .UriScheme
  | .Charset => utf8_string buf .Charset
  | .NaturalLanguage => utf8_string buf .NaturalLanguage
  | .MimeMediaType => utf8_string buf .MimeMediaType
  | .MemberAttrName => utf8_string buf .MemberAttrName
  | _ => .err .protocolError

/-- `IPPResponse::parse_attribute`.  The declared name length and value
length are read as `i16`, cast `as usize`, and used directly as the size
of a `vec![0u8; n]` allocation: a size above `isize::MAX` makes the
allocation panic (`crash`); otherwise `read_exact` of that size fails
with an IO error when fewer bytes remain. -/
def parse_attribute (input : List Nat) (value_type : DelimiterOrValueTag) :
    POutcome ((List Nat × AttributeValue) × List Nat) :=
  match read_exact 2 input with
  | none => .err .ioError
  | some (b, rest) =>
    let name_len := usize_of_i16 (i16_of_bytes (b.getD 0 0) (b.getD 1 0))
    if 2 ^ 63 ≤ name_len then .crash
    else
      match read_exact name_len rest with
      | none => .err .ioError
      | some (name_buf, rest) =>
        if isValidUtf8 name_buf then
          match read_exact 2 rest with
          | none => .err .ioError
          | some (b2, rest) =>
            let value_len := usize_of_i16 (i16_of_bytes (b2.getD 0 0) (b2.getD 1 0))
            if 2 ^ 63 ≤ value_len then .crash
            else
              match read_exact value_len rest with
              | none => .err .ioError
              | some (value_buf, rest) =>
                match decode_attribute_value value_type value_buf with
                | .crash => .crash
                | .err e => .err e
                | .ok v => .ok ((name_buf, v), rest)
        else .err .valueFormatError

/-- `IPPResponse::parse_tag`. -/
def parse_tag (input : List Nat) : POutcome (DelimiterOrValueTag × List Nat) :=
  match input with
  | [] => .err .ioError
  | b :: rest =>
    match tag_from_byte b with
    | some t => .ok (t, rest)
    | none => .err .protocolError

/-- `HashMap::insert` on the association-list model: replaces the value
of an existing key in place, appends a new key. -/
def insert_assoc (k : List Nat) (v : AttributeValue) :
    List (List Nat × AttributeValue) → List (List Nat × AttributeValue)
  | [] => [(k, v)]
  | (k', v') :: rest =>
    if k' = k then (k, v) :: rest else (k', v') :: insert_assoc k v rest

/-- Loop body of `IPPResponse::parse_collection`, with explicit fuel
(each iteration consumes at least one input byte, so `input.length + 1`
fuel always suffices). -/
def parse_collection_loop (fuel : Nat) (input : List Nat)
    (map : List (List Nat × AttributeValue)) :
    POutcome (List (List Nat × AttributeValue) × List Nat) :=
  match fuel with
  | 0 => .crash
  | fuel + 1 =>
    match parse_tag input with
    | .crash => .crash
    | .err e => .err e
    | .ok (t, rest) =>
      match t with
      | .EndCollection =>
        match parse_attribute rest .EndCollection with
        | .crash => .crash
        | .err e => .err e
        | .ok (_, rest) => .ok (map, rest)
      | .MemberAttrName =>
        match parse_attribute rest .MemberAttrName with
        | .crash => .crash
        | .err e => .err e
        | .ok ((_, v), rest) =>
          match v with
          | .MemberAttrName name =>
            match parse_tag rest with
            | .crash => .crash
            | .err e => .err e
            | .ok (t2, rest) =>
              match t2 with
              | .OperationAttributesTag => .err .protocolError
              | .JobAttributesTag => .err .protocolError
              | .PrinterAttributesTag => .err .protocolError
              | .UnsupportedAttributesTag => .err .protocolError
              | .BegCollection =>
                match parse_attribute rest .BegCollection with
                | .crash => .crash
                | .err e => .err e
                | .ok (_, rest) =>
                  match parse_collection_loop fuel rest [] with
                  | .crash => .crash
                  | .err e => .err e
                  | .ok (inner, rest) =>
                    parse_collection_loop fuel rest
                      (insert_assoc name (.CollectionAttribute inner) map)
              | t2 =>
                match parse_attribute rest t2 with
                | .crash => .crash
                | .err e => .err e
                | .ok ((_, attr), rest) =>
                  parse_collection_loop fuel rest (insert_assoc name attr map)
          | _ => .err .protocolError
      | _ => .err .protocolError

/-- `IPPResponse::parse_collection` (invoked after the `BegCollection`
attribute itself has been consumed). -/
def parse_collection (input : List Nat) :
    POutcome (List (List Nat × AttributeValue) × List Nat) :=
  parse_collection_loop (input.length + 1) input []

/-- The inner loop of `IPPResponse::parse_attribute_group`: reads
attributes of one group until a delimiter tag, returning the raw
attribute list, the delimiter that ended the group, whether it was
EndOfAttributes, and the remaining input. -/
def collect_attrs (fuel : Nat) (input : List Nat)
    (acc : List (List Nat × AttributeValue)) :
    POutcome (List (List Nat × AttributeValue) × DelimiterOrValueTag × Bool × List Nat) :=
  match fuel with
  | 0 => .crash
  | fuel + 1 =>
    match parse_tag input with
    | .crash => .crash
    | .err e => .err e
    | .ok (t, rest) =>
      match t with
      | .EndOfAttributesTag => .ok (acc, t, true, rest)
      | .OperationAttributesTag => .ok (acc, t, false, rest)
      | .JobAttributesTag => .ok (acc, t, false, rest)
      | .PrinterAttributesTag => .ok (acc, t, false, rest)
      | .UnsupportedAttributesTag => .ok (acc, t, false, rest)
      | .BegCollection =>
        match parse_attribute rest .BegCollection with
        | .crash => .crash
        | .err e => .err e
        | .ok ((name, _), rest) =>
          match parse_collection_loop fuel rest [] with
          | .crash => .crash
          | .err e => .err e
          | .ok (m, rest) =>
            collect_attrs fuel rest (acc ++ [(name, .CollectionAttribute m)])
      | t =>
        match parse_attribute rest t with
        | .crash => .crash
        | .err e => .err e
        | .ok (p, rest) => collect_attrs fuel rest (acc ++ [p])

/-- The additional-values fusion loop at the end of each group in
`IPPResponse::parse_attribute_group`: each maximal run of attributes
after a leading one whose followers have empty names becomes a single
`VectorAttribute` entry under the leading name. -/
def coalesce (fuel : Nat) (attrs : List (List Nat × AttributeValue)) :
    List (List Nat × AttributeValue) :=
  match fuel, attrs with
  | _, [] => []
  | 0, rest => rest
  | fuel + 1, a :: rest =>
    let run := rest.takeWhile (fun p => p.1.isEmpty)
    let rest2 := rest.dropWhile (fun p => p.1.isEmpty)
    if run.isEmpty then a :: coalesce fuel rest2
    else (a.1, .VectorAttribute (a.2 :: run.map Prod.snd)) :: coalesce fuel rest2

/-- The outer loop of `IPPResponse::parse_attribute_group`: one iteration
per attribute group. -/
def parse_groups_loop (fuel : Nat) (cur : DelimiterOrValueTag) (input : List Nat)
    (acc : List (DelimiterOrValueTag × List (List Nat × AttributeValue))) :
    POutcome (List (DelimiterOrValueTag × List (List Nat × AttributeValue)) × List Nat) :=
  match fuel with
  | 0 => .crash
  | fuel + 1 =>
    match collect_attrs (input.length + 1) input [] with
    | .crash => .crash
    | .err e => .err e
    | .ok (attrs, next, ended, rest) =>
      let acc := acc ++ [(cur, coalesce attrs.length attrs)]
      if ended then .ok (acc, rest) else parse_groups_loop fuel next rest acc

/-- `IPPResponse::parse_attribute_group`. -/
def parse_attribute_group (input : List Nat) :
    POutcome (List (DelimiterOrValueTag × List (List Nat × AttributeValue)) × List Nat) :=
  match parse_tag input with
  | .crash => .crash
  | .err e => .err e
  | .ok (t, rest) => parse_groups_loop (rest.length + 1) t rest []

/-- `struct IPPResponse`. -/
structure IPPResponse where
  version_major : Int
  version_minor : Int
  status_code : StatusCode
  request_id : Int
  attrs : List (DelimiterOrValueTag × List (List Nat × AttributeValue))
  data : List Nat

/-- `IPPResponse::read_from_stream`. -/
def read_from_stream (input : List Nat) : POutcome IPPResponse :=
  match read_exact 8 input with
  | none => .err .ioError
  | some (h, rest) =>
    match statusCode_from_i16 (i16_of_bytes (h.getD 2 0) (h.getD 3 0)) with
    | none => .err .protocolError
    | some sc =>
      match parse_attribute_group rest with
      | .crash => .crash
      | .err e => .err e
      | .ok (attrs, rest2) =>
        .ok ⟨i8_of_byte (h.getD 0 0), i8_of_byte (h.getD 1 0), sc,
          i32_of_bytes (h.getD 4 0) (h.getD 5 0) (h.getD 6 0) (h.getD 7 0), attrs, rest2⟩

/-- `struct IPPRequest`. -/
structure IPPRequest where
  version_major : Int
  version_minor : Int
  operation_id : PrinterOperation
  request_id : Int
  attrs : List (DelimiterOrValueTag × List (List Nat × AttributeValue))
  data : List Nat

/-- `IPPRequest::write_str_and_len`: a 16-bit big-endian length followed
by the bytes (the length is `len as u16`). -/
def write_str_and_len (s : List Nat) : List Nat := u16be (s.length % 65536) ++ s

/-- The bytes `StringWithLanguage::write_to_stream` emits. -/
def StringWithLanguage.encode (v : StringWithLanguage) : List Nat :=
  u16be (v.lang.length % 65536) ++ v.lang ++ u16be (v.string.length % 65536) ++ v.string

/-- `StringWithLanguage::byte_len` (`as u16`). -/
def StringWithLanguage.byte_len (v : StringWithLanguage) : Nat :=
  (2 + v.lang.length + 2 + v.string.length) % 65536

/-- The bytes `DateTime::write_to_stream` emits. -/
def DateTimeValue.encode (v : DateTimeValue) : List Nat :=
  u16be (v.year % 65536) ++
    [v.month % 256, v.day % 256, v.hour % 256, v.minutes % 256, v.seconds % 256,
     v.deci_seconds % 256, v.direction_from_utc % 256, v.hours_from_utc % 256,
     v.minutes_from_utc % 256]

/-- The bytes `Resolution::write_to_stream` emits. -/
def ResolutionValue.encode (v : ResolutionValue) : List Nat :=
  i32be v.resolution_cross_feed ++ i32be v.resolution_feed ++ [u8_of_int v.units]

/-- The bytes one attribute contributes inside
`IPPRequest::write_attribute_group`: the match over `attr.1` in the
source.  `CollectionAttribute` and `VectorAttribute` fall into the two
`=> ()` arms and contribute nothing. -/
def encode_attribute (name : List Nat) : AttributeValue → List Nat
  | .Unsupported val =>
    DelimiterOrValueTag.Unsupported.toByte :: write_str_and_len name ++
      u16be (val.length % 65536) ++ val
  | .Unknown val =>
    DelimiterOrValueTag.Unknown.toByte :: write_str_and_len name ++
      u16be (val.length % 65536) ++ val
  | .NoValue =>
    DelimiterOrValueTag.NoValue.toByte :: write_str_and_len name ++ u16be 0
  | .Integer val =>
    DelimiterOrValueTag.Integer.toByte :: write_str_and_len name ++ u16be 4 ++ i32be val
  | .Boolean val =>
    DelimiterOrValueTag.Boolean.toByte :: write_str_and_len name ++ u16be 1 ++
      [if val then 1 else 0]
  | .Enum val =>
    DelimiterOrValueTag.Enum.toByte :: write_str_and_len name ++ u16be 4 ++ i32be val
  | .OctetStringUnspecified val =>
    DelimiterOrValueTag.OctetStringUnspecified.toByte :: write_str_and_len name ++
      write_str_and_len val
  | .DateTime val =>
    DelimiterOrValueTag.DateTime.toByte :: write_str_and_len name ++ u16be 11 ++ val.encode
  | .Resolution val =>
    DelimiterOrValueTag.Resolution.toByte :: write_str_and_len name ++ u16be 9 ++ val.encode
  | .RangeOfInteger start stop =>
    DelimiterOrValueTag.RangeOfInteger.toByte :: write_str_and_len name ++ u16be 8 ++
      i32be start ++ i32be stop
  | .BegCollection =>
    DelimiterOrValueTag.BegCollection.toByte :: write_str_and_len name ++ u16be 0
  | .TextWithLanguage val =>
    DelimiterOrValueTag.TextWithLanguage.toByte :: write_str_and_len name ++
      u16be val.byte_len ++ val.encode
  | .NameWithLanguage val =>
    DelimiterOrValueTag.NameWithLanguage.toByte :: write_str_and_len name ++
      u16be val.byte_len ++ val.encode
  | .EndCollection =>
    DelimiterOrValueTag.EndCollection.toByte :: write_str_and_len name ++ u16be 0
  | .TextWithoutLanguage val =>
    DelimiterOrValueTag.TextWithoutLanguage.toByte :: write_str_and_len name ++
      write_str_and_len val
  | .NameWithoutLanguage val =>
    DelimiterOrValueTag.NameWithoutLanguage.toByte :: write_str_and_len name ++
      write_str_and_len val
  | .Keyword val =>
    DelimiterOrValueTag.Keyword.toByte :: write_str_and_len name ++ write_str_and_len val
  | .Uri val =>
    DelimiterOrValueTag.Uri.toByte :: write_str_and_len name ++ write_str_and_len val
  | .UriScheme val =>
    DelimiterOrValueTag.UriScheme.toByte :: write_str_and_len name ++ write_str_and_len val
  | .Charset val =>
    DelimiterOrValueTag.Charset.toByte :: write_str_and_len name ++ write_str_and_len val
  | .NaturalLanguage val =>
    DelimiterOrValueTag.NaturalLanguage.toByte :: write_str_and_len name ++
      write_str_and_len val
  | .MimeMediaType val =>
    DelimiterOrValueTag.MimeMediaType.toByte :: write_str_and_len name ++
      write_str_and_len val
  | .MemberAttrName val =>
    DelimiterOrValueTag.MemberAttrName.toByte :: write_str_and_len name ++
      write_str_and_len val
  | .CollectionAttribute _ => []
  | .VectorAttribute _ => []

/-- `IPPRequest::write_attribute_group`: for each group its delimiter
byte followed by its attributes.  Writes to an in-memory buffer never
fail, so the function is total; note that no EndOfAttributes tag is
written here. -/
def write_attribute_group
    (attrs : List (DelimiterOrValueTag × List (List Nat × AttributeValue))) : List Nat :=
  attrs.flatMap fun g =>
    g.1.toByte :: g.2.flatMap fun a => encode_attribute a.1 a.2

/-- `IPPRequest::write_to_stream`: 8-byte header, the attribute groups,
then the document data (no EndOfAttributes tag is emitted anywhere). -/
def IPPRequest.write_to_stream (r : IPPRequest) : List Nat :=
  [u8_of_int r.version_major, u8_of_int r.version_minor] ++
    i16be r.operation_id.code ++ i32be r.request_id ++
    write_attribute_group r.attrs ++ r.data

/-- A minimal well-formed request (version 1.1, Print-Job, one
Operation-Attributes group holding a `Charset` attribute named `"a"`
with value `"x"`, no document data). -/
def sample_request : IPPRequest :=
  { version_major := 1
    version_minor := 1
    operation_id := .PrintJob
    request_id := 1
    attrs := [(.OperationAttributesTag, [([0x61], .Charset [0x78])])]
    data := [] }

/-- `struct SrgbColor` of pwgraster.rs. -/
structure SrgbColor where
  r : Nat
  g : Nat
  b : Nat
deriving DecidableEq

instance : Inhabited SrgbColor := ⟨⟨0, 0, 0⟩⟩

/-- `impl From<u32> for SrgbColor`. -/
def SrgbColor.ofU32 (v : Nat) : SrgbColor :=
  ⟨v / 2 ^ 16 % 256, v / 2 ^ 8 % 256, v % 256⟩

/-- One step of the backwards `comm` computation in
`ImageEncoder::do_encode_row`: `cur` is `row[x]`, `next` is `row[x+1]`,
`c` is `comm[x+1]`; the result is `comm[x]`. -/
def comm_step (cur next : SrgbColor) (c : Int) : Int :=
  if next = cur then
    if c < 0 then 1
    else if c = 127 then 0
    else c + 1
  else
    if c > 0 then 0
    else if c ≤ -128 then 0
    else c - 1

/-- Walks the reversed row: `prev` is the pixel one position to the
right of the head of the list, `c` the `comm` value already computed for
`prev`; produces the `comm` values of the remaining positions, highest
position first. -/
def comm_rev_go (prev : SrgbColor) (c : Int) : List SrgbColor → List Int
  | [] => []
  | p :: rest =>
    let c2 := comm_step p prev c
    c2 :: comm_rev_go p c2 rest

/-- The full `comm` array of `ImageEncoder::do_encode_row`: the loop
`for x in (0..row.len()-1).rev()` over the mutable array, with
`comm[row.len()-1] = 0`. -/
def comm_list (row : List SrgbColor) : List Int :=
  match row.reverse with
  | [] => []
  | p :: rest => (0 :: comm_rev_go p 0 rest).reverse

/-- The emission loop of `ImageEncoder::do_encode_row`: starting at
pixel index `x`, emit one packet per iteration (`comm[x] as u8`, then
either the single run pixel or `-comm[x]+1` literal pixels) and advance.
Indexing past the end of `row` or `comm` models the corresponding Rust
index panic; fuel exhaustion is also `crash` (it is proved unreachable
for the fuel used by `do_encode_row`). -/
def emit_row (fuel : Nat) (row : List SrgbColor) (comm : List Int) (x : Nat) :
    POutcome (List Nat) :=
  match fuel with
  | 0 => .crash
  | fuel + 1 =>
    if x < row.length then
      if x < comm.length then
        if comm.getD x 0 < 0 then
          if x + (-(comm.getD x 0)).toNat < row.length then
            match emit_row fuel row comm (x + (-(comm.getD x 0)).toNat + 1) with
            | .crash => .crash
            | .err e => .err e
            | .ok bs =>
              .ok (u8_of_int (comm.getD x 0) ::
                (((row.drop x).take ((-(comm.getD x 0)).toNat + 1)).flatMap
                  fun p => [p.r, p.g, p.b]) ++ bs)
          else .crash
        else
          match emit_row fuel row comm (x + (comm.getD x 0).toNat + 1) with
          | .crash => .crash
          | .err e => .err e
          | .ok bs =>
            .ok (u8_of_int (comm.getD x 0) :: (row.getD x default).r ::
              (row.getD x default).g :: (row.getD x default).b :: bs)
      else .crash
    else .ok []

/-- `ImageEncoder::do_encode_row`: panics on an empty row, otherwise
RLE-encodes one scanline. -/
def do_encode_row (row : List SrgbColor) : POutcome (List Nat) :=
  if row.isEmpty then .crash
  else emit_row (row.length + 1) row (comm_list row) 0

/-- `struct ImageEncoder`. -/
structure ImageEncoder where
  width : Nat
  height : Nat
  prev_row : Option (List SrgbColor)
  written_rows : Nat
  comm_rows : Nat
deriving DecidableEq

/-- `ImageEncoder::new`. -/
def ImageEncoder.new (width height : Nat) : ImageEncoder :=
  ⟨width, height, none, 0, 0⟩

/-- `ImageEncoder::write_row`: panics on a row of the wrong width or
once `height` rows have been accepted; on the row-repeat path the `u8`
counter `comm_rows` panics on overflow (debug profile) when it is
incremented past 255. -/
def write_row (s : ImageEncoder) (row : List SrgbColor) :
    POutcome (ImageEncoder × List Nat) :=
  if row.length ≠ s.width then .crash
  else if s.height ≤ s.written_rows then .crash
  else
    match s.prev_row with
    | none =>
      .ok ({ s with written_rows := s.written_rows + 1, prev_row := some row }, [])
    | some prev =>
      if s.written_rows + 1 ≠ s.height ∧ prev = row then
        if s.comm_rows = 255 then .crash
        else
          .ok ({ s with
                  comm_rows := s.comm_rows + 1
                  written_rows := s.written_rows + 1 }, [])
      else
        match do_encode_row prev with
        | .crash => .crash
        | .err e => .err e
        | .ok bytes =>
          .ok ({ s with
                  prev_row := some row
                  comm_rows := 0
                  written_rows := s.written_rows + 1 }, s.comm_rows :: bytes)

/-- Feeding a list of rows one by one through `ImageEncoder::write_row`,
concatenating the emitted bytes (the loop of the `encode_image` test). -/
def iter_rows (s : ImageEncoder) : List (List SrgbColor) → POutcome (ImageEncoder × List Nat)
  | [] => .ok (s, [])
  | row :: rest =>
    match write_row s row with
    | .crash => .crash
    | .err e => .err e
    | .ok (s2, bytes) =>
      match iter_rows s2 rest with
      | .crash => .crash
      | .err e => .err e
      | .ok (s3, more) => .ok (s3, bytes ++ more)

/-- Reading one pixel (3 bytes) in the raster body loop of
`read_raster`; a short read there is a `panic!`. -/
def read_pixel (input : List Nat) : POutcome (SrgbColor × List Nat) :=
  match input with
  | c0 :: c1 :: c2 :: rest => .ok (⟨c0, c1, c2⟩, rest)
  | _ => .crash

/-- Reading `n` pixels one at a time (the literal-run loop of
`read_raster`). -/
def read_pixels : Nat → List Nat → POutcome (List SrgbColor × List Nat)
  | 0, input => .ok ([], input)
  | n + 1, input =>
    match read_pixel input with
    | .crash => .crash
    | .err e => .err e
    | .ok (p, rest) =>
      match read_pixels n rest with
      | .crash => .crash
      | .err e => .err e
      | .ok (ps, rest2) => .ok (p :: ps, rest2)

/-- The packet-reading scanline loop of `read_raster`, generalized from
the hard-coded width 2480 to a `width` parameter: reads packets until
`width` pixels are produced (truncating a packet that overshoots).  The
count byte is read as `i8`; a count of `-128` makes the Rust negation
`-run_len` overflow, a panic in the debug profile (`crash`); short reads
panic as in the source. -/
def rle_decode_line (fuel width : Nat) (input : List Nat) (x : Nat)
    (acc : List SrgbColor) : POutcome (List SrgbColor × List Nat) :=
  match fuel with
  | 0 => .crash
  | fuel + 1 =>
    match input with
    | [] => .crash
    | b :: rest =>
      let run_len := i8_of_byte b
      if 0 ≤ run_len then
        match read_pixel rest with
        | .crash => .crash
        | .err e => .err e
        | .ok (color, rest2) =>
          let n := min (run_len.toNat + 1) (width - x)
          if width ≤ x + n then .ok (acc ++ List.replicate n color, rest2)
          else rle_decode_line fuel width rest2 (x + n) (acc ++ List.replicate n color)
      else
        if run_len = -128 then .crash
        else
          let n := min ((-run_len).toNat + 1) (width - x)
          match read_pixels n rest with
          | .crash => .crash
          | .err e => .err e
          | .ok (pixels, rest2) =>
            if width ≤ x + n then .ok (acc ++ pixels, rest2)
            else rle_decode_line fuel width rest2 (x + n) (acc ++ pixels)

/-- Decoding one RLE scanline of `width` pixels from `input`. -/
def rle_decode (width : Nat) (input : List Nat) : POutcome (List SrgbColor × List Nat) :=
  rle_decode_line (input.length + 1) width input 0 []

/-- The scanline round trip of the codec: encode one row with
`ImageEncoder::do_encode_row`, then decode it back with the scanline
loop of `read_raster` at the same width. -/
def rle_round_trip (row : List SrgbColor) : POutcome (List SrgbColor × List Nat) :=
  match do_encode_row row with
  | .crash => .crash
  | .err e => .err e
  | .ok bytes => rle_decode row.length bytes

/-- A scanline of 129 pairwise-distinct pixels (colors `0..=128` as
`u32`), the shortest shape forcing a `-128` count byte. -/
def rle_row129 : List SrgbColor := (List.range 129).map SrgbColor.ofU32

/-- The 200-pixel all-distinct scanline of the source's
`encode_row_long_diff_pixels` test. -/
def rle_row200 : List SrgbColor := (List.range 200).map SrgbColor.ofU32

/-- The byte length of a successful `do_encode_row` run (0 when the
encoder does not succeed). -/
def encoded_len (row : List SrgbColor) : Nat :=
  match do_encode_row row with
  | .ok bytes => bytes.length
  | _ => 0

/-- The 8×8 sample bitmap of the source's `encode_image` test. -/
def sample_image_rows : List (List SrgbColor) :=
  [[0xFFFFFF, 0xFFFF00, 0xFFFF00, 0xFFFF00, 0xFFFFFF, 0xFFFFFF, 0xFFFFFF, 0xFFFFFF],
   [0xFFFF00, 0x0000FF, 0xFFFF00, 0xFFFFFF, 0xFFFFFF, 0xFFFFFF, 0x00FF00, 0xFFFFFF],
   [0xFFFF00, 0xFFFF00, 0xFFFFFF, 0xFFFFFF, 0xFFFFFF, 0x00FF00, 0x00FF00, 0x00FF00],
   [0xFFFF00, 0xFFFF00, 0xFFFF00, 0xFFFFFF, 0xFFFFFF, 0xFFFFFF, 0x00FF00, 0xFFFFFF],
   [0xFFFFFF, 0xFFFF00, 0xFFFF00, 0xFFFF00, 0xFFFFFF, 0xFFFFFF, 0xFFFFFF, 0xFFFFFF],
   [0xFFFFFF, 0xFFFFFF, 0xFFFFFF, 0xFFFFFF, 0xFFFFFF, 0xFFFFFF, 0xFFFFFF, 0xFFFFFF],
   [0xFF0000, 0xFF0000, 0xFF0000, 0xFF0000, 0xFF0000, 0xFF0000, 0xFF0000, 0xFF0000],
   [0xFF0000, 0xFF0000, 0xFF0000, 0xFF0000, 0xFF0000, 0xFF0000, 0xFF0000, 0xFF0000]].map
    (List.map SrgbColor.ofU32)

/-- The `expected_bytes` of the source's `encode_image` test. -/
def encode_image_expected : List Nat :=
  [0x00, 0x00, 0xFF, 0xFF, 0xFF, 0x02, 0xFF, 0xFF, 0x00, 0x03, 0xFF, 0xFF, 0xFF, 0x00,
   0xFE, 0xFF, 0xFF, 0x00, 0x00, 0x00, 0xFF, 0xFF, 0xFF, 0x00, 0x02, 0xFF, 0xFF, 0xFF,
   0xFF, 0x00, 0xFF, 0x00, 0xFF, 0xFF, 0xFF, 0x00, 0x01, 0xFF, 0xFF, 0x00, 0x02, 0xFF,
   0xFF, 0xFF, 0x02, 0x00, 0xFF, 0x00, 0x00, 0x02, 0xFF, 0xFF, 0x00, 0x02, 0xFF, 0xFF,
   0xFF, 0xFF, 0x00, 0xFF, 0x00, 0xFF, 0xFF, 0xFF, 0x00, 0x00, 0xFF, 0xFF, 0xFF, 0x02,
   0xFF, 0xFF, 0x00, 0x03, 0xFF, 0xFF, 0xFF, 0x00, 0x07, 0xFF, 0xFF, 0xFF, 0x01, 0x07,
   0xFF, 0x00, 0x00]

/-- The bytes the code actually produces for the `encode_image` test
input (it differs from `encode_image_expected` at index 82, where the
code emits a band-repeat byte of 0, and the final red row is left
pending in the encoder, never emitted). -/
def encode_image_actual : List Nat :=
  [0x00, 0x00, 0xFF, 0xFF, 0xFF, 0x02, 0xFF, 0xFF, 0x00, 0x03, 0xFF, 0xFF, 0xFF, 0x00,
   0xFE, 0xFF, 0xFF, 0x00, 0x00, 0x00, 0xFF, 0xFF, 0xFF, 0x00, 0x02, 0xFF, 0xFF, 0xFF,
   0xFF, 0x00, 0xFF, 0x00, 0xFF, 0xFF, 0xFF, 0x00, 0x01, 0xFF, 0xFF, 0x00, 0x02, 0xFF,
   0xFF, 0xFF, 0x02, 0x00, 0xFF, 0x00, 0x00, 0x02, 0xFF, 0xFF, 0x00, 0x02, 0xFF, 0xFF,
   0xFF, 0xFF, 0x00, 0xFF, 0x00, 0xFF, 0xFF, 0xFF, 0x00, 0x00, 0xFF, 0xFF, 0xFF, 0x02,
   0xFF, 0xFF, 0x00, 0x03, 0xFF, 0xFF, 0xFF, 0x00, 0x07, 0xFF, 0xFF, 0xFF, 0x00, 0x07,
   0xFF, 0x00, 0x00]

/-- The byte sequence of the wire input for
"`MemberAttrName` immediately followed by `EndCollection`" inside a
collection body: a `MemberAttrName` attribute with empty name and
member-name value `"k"`, an `EndCollection` attribute (empty name and
value) in value position, and a final `EndCollection` attribute closing
the collection. -/
def member_then_end_bytes : List Nat :=
  [0x4a, 0, 0, 0, 1, 0x6b, 0x37, 0, 0, 0, 0, 0x37, 0, 0, 0, 0]

/-- The bytes of a successful `do_encode_row` run (empty when the
encoder does not succeed). -/
def encoded_bytes (row : List SrgbColor) : List Nat :=
  match do_encode_row row with
  | .ok bytes => bytes
  | _ => []

/-! ## Helper lemmas -/

theorem flatMap_rgb_length (l : List SrgbColor) :
    (l.flatMap fun p => [p.r, p.g, p.b]).length = 3 * l.length := by
  induction l with
  | nil => simp
  | cons p rest ih => simp [ih]; ring

theorem comm_step_neg_le (cur next : SrgbColor) (c : Int) :
    (-(comm_step cur next c)).toNat ≤ (-c).toNat + 1 := by
  unfold comm_step
  split_ifs <;> omega

theorem comm_rev_go_length (l : List SrgbColor) :
    ∀ prev c, (comm_rev_go prev c l).length = l.length := by
  induction l with
  | nil => intro prev c; rfl
  | cons p rest ih => intro prev c; simp [comm_rev_go, ih]

theorem comm_rev_go_getD_le (l : List SrgbColor) :
    ∀ prev c k, k < l.length →
      (-((comm_rev_go prev c l).getD k 0)).toNat ≤ (-c).toNat + k + 1 := by
  induction l with
  | nil => intro _ _ k hk; simp at hk
  | cons p rest ih =>
    intro prev c k hk
    match k with
    | 0 =>
      have : (comm_rev_go prev c (p :: rest)).getD 0 0 = comm_step p prev c := rfl
      rw [this]
      have := comm_step_neg_le p prev c
      omega
    | k + 1 =>
      have hk2 : k < rest.length := by simpa using hk
      have h1 := ih p (comm_step p prev c) k hk2
      have h2 := comm_step_neg_le p prev c
      have : (comm_rev_go prev c (p :: rest)).getD (k + 1) 0 =
          (comm_rev_go p (comm_step p prev c) rest).getD k 0 := rfl
      rw [this]
      omega

theorem comm_list_length (row : List SrgbColor) : (comm_list row).length = row.length := by
  unfold comm_list
  rcases h : row.reverse with _ | ⟨p, rest⟩
  · have : row = [] := by simpa using congrArg List.reverse h
    simp [this]
  · have hlen : row.length = rest.length + 1 := by
      have := congrArg List.length h
      simpa using this
    simp [comm_rev_go_length, hlen]

theorem comm_list_getD_bound (row : List SrgbColor) (x : Nat) (hx : x < row.length)
    (hneg : (comm_list row).getD x 0 < 0) :
    x + (-((comm_list row).getD x 0)).toNat < row.length := by
  rcases h : row.reverse with _ | ⟨p, rest⟩
  · have : row = [] := by simpa using congrArg List.reverse h
    subst this; simp at hx
  · have hlen : row.length = rest.length + 1 := by
      have := congrArg List.length h
      simpa using this
    have hfull : comm_list row = (0 :: comm_rev_go p 0 rest).reverse := by
      unfold comm_list
      rw [h]
    have hfl : (0 :: comm_rev_go p 0 rest).length = row.length := by
      simp [comm_rev_go_length, hlen]
    have hxr : x < ((0 :: comm_rev_go p 0 rest).reverse).length := by
      rw [List.length_reverse, hfl]; exact hx
    have hb : row.length - 1 - x < (0 :: comm_rev_go p 0 rest).length := by
      rw [hfl]; omega
    have hidx : (comm_list row).getD x 0 =
        (0 :: comm_rev_go p 0 rest).get ⟨row.length - 1 - x, hb⟩ := by
      rw [hfull, List.getD_eq_getElem _ _ hxr, List.getElem_reverse, List.get_eq_getElem]
      congr 1
      simp only [Fin.val_mk]
      rw [hfl]
    rcases hcase : row.length - 1 - x with _ | k
    · rw [hidx] at hneg
      simp [hcase] at hneg
    · have hk : k < rest.length := by omega
      have hklen : k < (comm_rev_go p 0 rest).length := by
        rw [comm_rev_go_length]; exact hk
      have hval : (comm_list row).getD x 0 = (comm_rev_go p 0 rest).getD k 0 := by
        rw [hidx]
        simp only [hcase]
        rw [List.get_eq_getElem, List.getElem_cons_succ]
        exact (List.getD_eq_getElem _ _ hklen).symm
      have := comm_rev_go_getD_le rest p 0 k hk
      rw [hval]
      rw [hval] at hneg
      omega

theorem emit_row_len (fuel : Nat) :
    ∀ (row : List SrgbColor) (comm : List Int) (x : Nat) (bytes : List Nat),
      emit_row fuel row comm x = POutcome.ok bytes →
      bytes.length ≤ 4 * (row.length - x) := by
  induction fuel with
  | zero =>
    intro row comm x bytes h
    exact absurd h (by simp [emit_row])
  | succ fuel ih =>
    intro row comm x bytes h
    unfold emit_row at h
    by_cases hx : x < row.length
    · rw [if_pos hx] at h
      by_cases hcx : x < comm.length
      · rw [if_pos hcx] at h
        by_cases hneg : comm.getD x 0 < 0
        · rw [if_pos hneg] at h
          by_cases hguard : x + (-(comm.getD x 0)).toNat < row.length
          · rw [if_pos hguard] at h
            rcases hrec : emit_row fuel row comm (x + (-(comm.getD x 0)).toNat + 1) with
              _ | e | bs
            · rw [hrec] at h; exact absurd h (by simp)
            · rw [hrec] at h; exact absurd h (by simp)
            · rw [hrec] at h
              have hlen := ih row comm (x + (-(comm.getD x 0)).toNat + 1) bs hrec
              have hbytes := (POutcome.ok.injEq _ _).mp h
              have hpix :
                  ((((row.drop x).take ((-(comm.getD x 0)).toNat + 1)).flatMap
                    fun p => [p.r, p.g, p.b]).length) =
                    3 * ((-(comm.getD x 0)).toNat + 1) := by
                rw [flatMap_rgb_length, List.length_take, List.length_drop]
                omega
              rw [← hbytes]
              simp only [List.length_cons, List.length_append]
              rw [hpix]
              omega
          · rw [if_neg hguard] at h; exact absurd h (by simp)
        · rw [if_neg hneg] at h
          rcases hrec : emit_row fuel row comm (x + (comm.getD x 0).toNat + 1) with _ | e | bs
          · rw [hrec] at h; exact absurd h (by simp)
          · rw [hrec] at h; exact absurd h (by simp)
          · rw [hrec] at h
            have hlen := ih row comm (x + (comm.getD x 0).toNat + 1) bs hrec
            have hbytes := (POutcome.ok.injEq _ _).mp h
            rw [← hbytes]
            simp only [List.length_cons]
            omega
      · rw [if_neg hcx] at h; exact absurd h (by simp)
    · rw [if_neg hx] at h
      have hbytes := (POutcome.ok.injEq _ _).mp h
      rw [← hbytes]
      simp

theorem emit_row_ok (fuel : Nat) :
    ∀ (row : List SrgbColor) (comm : List Int) (x : Nat),
      comm.length = row.length →
      (∀ y, y < row.length → comm.getD y 0 < 0 →
        y + (-(comm.getD y 0)).toNat < row.length) →
      row.length - x < fuel →
      ∃ bytes, emit_row fuel row comm x = POutcome.ok bytes := by
  induction fuel with
  | zero =>
    intro row comm x _ _ hfuel
    omega
  | succ fuel ih =>
    intro row comm x hlen hbound hfuel
    unfold emit_row
    by_cases hx : x < row.length
    · rw [if_pos hx, if_pos (by rw [hlen]; exact hx)]
      by_cases hneg : comm.getD x 0 < 0
      · rw [if_pos hneg]
        have hguard := hbound x hx hneg
        rw [if_pos hguard]
        have hkpos : 1 ≤ (-(comm.getD x 0)).toNat := by omega
        obtain ⟨bs, hbs⟩ :=
          ih row comm (x + (-(comm.getD x 0)).toNat + 1) hlen hbound (by omega)
        rw [hbs]
        exact ⟨_, rfl⟩
      · rw [if_neg hneg]
        obtain ⟨bs, hbs⟩ := ih row comm (x + (comm.getD x 0).toNat + 1) hlen hbound (by omega)
        rw [hbs]
        exact ⟨_, rfl⟩
    · rw [if_neg hx]
      exact ⟨[], rfl⟩

theorem do_encode_row_ok (row : List SrgbColor) (h : row ≠ []) :
    ∃ bytes, do_encode_row row = POutcome.ok bytes := by
  unfold do_encode_row
  rw [if_neg (by simpa [List.isEmpty_iff] using h)]
  exact emit_row_ok (row.length + 1) row (comm_list row) 0 (comm_list_length row)
    (fun y hy => comm_list_getD_bound row y hy) (by omega)

/-! ## Validation against the repository's own test vectors -/

set_option maxRecDepth 40000

/-- The `encode_row` unit test of pwgraster.rs: the 8-pixel sample row
encodes to the expected 21 bytes. -/
theorem encode_row_test_vector :
    do_encode_row ([0xFFFF00, 0x0000FF, 0xFFFF00, 0xFFFFFF, 0xFFFFFF, 0xFFFFFF,
      0x00FF00, 0xFFFFFF].map SrgbColor.ofU32) =
    POutcome.ok [0xFE, 0xFF, 0xFF, 0x00, 0x00, 0x00, 0xFF, 0xFF, 0xFF, 0x00, 0x02, 0xFF,
      0xFF, 0xFF, 0xFF, 0x00, 0xFF, 0x00, 0xFF, 0xFF, 0xFF] := by decide

/-- The scanline round trip does succeed on the 8-pixel test row (no
`-128` count byte arises at this width). -/
theorem rle_roundtrip_small_ok :
    rle_round_trip ([0xFFFF00, 0x0000FF, 0xFFFF00, 0xFFFFFF, 0xFFFFFF, 0xFFFFFF,
      0x00FF00, 0xFFFFFF].map SrgbColor.ofU32) =
    POutcome.ok (([0xFFFF00, 0x0000FF, 0xFFFF00, 0xFFFFFF, 0xFFFFFF, 0xFFFFFF,
      0x00FF00, 0xFFFFFF].map SrgbColor.ofU32), []) := by decide

/-- Additional-values coalescing (spec §8 scenario 2, with short names):
three same-tag attributes where the followers carry empty names decode
to a single `VectorAttribute` under the first name. -/
theorem additional_values_coalesce_test :
    read_from_stream
      [1, 1, 0, 0, 0, 0, 0, 1,
       0x01,
       0x45, 0, 1, 97, 0, 2, 117, 49,
       0x45, 0, 0, 0, 2, 117, 50,
       0x45, 0, 0, 0, 2, 117, 51,
       0x03] =
    POutcome.ok
      { version_major := 1
        version_minor := 1
        status_code := .SuccessfulOk
        request_id := 1
        attrs := [(.OperationAttributesTag,
          [([97], .VectorAttribute
            [.Uri [117, 49], .Uri [117, 50], .Uri [117, 51]])])]
        data := [] } := rfl

/-- Nested collection decoding (spec §8 scenario 3, with short names):
`BegCollection "c"`, member `"k" → Keyword "v"`, member `"m"` holding a
nested collection `{"n" → Keyword "w"}`. -/
theorem nested_collection_decode_test :
    read_from_stream
      [1, 1, 0, 0, 0, 0, 0, 1,
       0x01,
       0x34, 0, 1, 99, 0, 0,
       0x4a, 0, 0, 0, 1, 107,
       0x44, 0, 0, 0, 1, 118,
       0x4a, 0, 0, 0, 1, 109,
       0x34, 0, 0, 0, 0,
       0x4a, 0, 0, 0, 1, 110,
       0x44, 0, 0, 0, 1, 119,
       0x37, 0, 0, 0, 0,
       0x37, 0, 0, 0, 0,
       0x03] =
    POutcome.ok
      { version_major := 1
        version_minor := 1
        status_code := .SuccessfulOk
        request_id := 1
        attrs := [(.OperationAttributesTag,
          [([99], .CollectionAttribute
            [([107], .Keyword [118]),
             ([109], .CollectionAttribute [([110], .Keyword [119])])])])]
        data := [] } := rfl

/-! ## Claim theorems -/

/-- C1: the IPP round trip fails on the code.  For the well-formed
request `sample_request`, `IPPRequest::write_to_stream` emits the 8-byte
header followed directly by the attribute group and never writes the
EndOfAttributes tag 0x03 (the encoding contains no 0x03 byte at all), so
`IPPResponse::read_from_stream` on the encoding runs past the attributes
into end-of-input and fails with an IO error instead of reconstructing
the request. -/
theorem c1_request_roundtrip_fails :
    IPPRequest.write_to_stream sample_request =
      [1, 1, 0, 2, 0, 0, 0, 1, 1, 0x47, 0, 1, 0x61, 0, 1, 0x78] ∧
    (¬ 3 ∈ IPPRequest.write_to_stream sample_request) ∧
    read_from_stream (IPPRequest.write_to_stream sample_request) =
      POutcome.err IPPError.ioError :=
  ⟨rfl, by decide, rfl⟩

/-- C2: the PWG-Raster scanline round trip fails on the code.  The
129-pixel all-distinct scanline is RLE-encoded by
`ImageEncoder::do_encode_row` into a packet whose count byte is 0x80
(`-128` as `i8`), and the scanline decoding loop of `read_raster`
panics on that byte: negating `-128_i8` overflows.  Hence
`rle_decode(rle_encode(scanline))` is a panic, not the scanline. -/
theorem c2_rle_roundtrip_crashes :
    (encoded_bytes rle_row129).headD 0 = 0x80 ∧
    rle_row129.length = 129 ∧
    rle_round_trip rle_row129 = POutcome.crash :=
  ⟨by decide, by decide, by decide⟩

/-- C3 counterexample: a Boolean attribute value with the single payload
byte 2 is not rejected as a protocol error; it decodes to `false`. -/
theorem c3_boolean_nonzero_accepted :
    decode_attribute_value .Boolean [2] = POutcome.ok (.Boolean false) := rfl

/-- C3 amended: decoding a Boolean value with a one-byte payload maps
byte 1 to `true` and every other byte (including 0 and 2..255) to
`false`; only a payload whose length differs from 1 is rejected (as a
protocol error). -/
theorem c3_boolean_decode_amended :
    (∀ b : Nat, decode_attribute_value .Boolean [b] =
      POutcome.ok (.Boolean (b == 1))) ∧
    (∀ buf : List Nat, buf.length ≠ 1 →
      decode_attribute_value .Boolean buf = POutcome.err .protocolError) := by
  constructor
  · intro b; rfl
  · intro buf h
    unfold decode_attribute_value
    rw [if_neg h]

/-- C3 witness: the amended statement applied at byte 0 and at the
two-byte payload `[5, 5]`. -/
theorem c3_boolean_decode_amended_witness :
    decode_attribute_value .Boolean [0] = POutcome.ok (.Boolean false) ∧
    decode_attribute_value .Boolean [5, 5] = POutcome.err .protocolError :=
  ⟨c3_boolean_decode_amended.1 0, c3_boolean_decode_amended.2 [5, 5] (by decide)⟩

/-- C4: `StringWithLanguage::parse_buffer` panics (`unwrap` on
`String::from_utf8`) on the payload `[0, 1, 0xFF, 0, 0]`, whose language
substring `[0xFF]` is not UTF-8, instead of returning a value-format
error; and it accepts the payload `[0, 0, 0, 1, 0x41, 0x42]`, whose
inner lengths sum to 5 while the payload is 6 bytes long (the trailing
byte is silently ignored), instead of rejecting it. -/
theorem c4_string_with_language_parse_bug :
    StringWithLanguage.parse_buffer [0, 1, 0xFF, 0, 0] = POutcome.crash ∧
    StringWithLanguage.parse_buffer [0, 0, 0, 1, 0x41, 0x42] =
      POutcome.ok ⟨[], [0x41]⟩ :=
  ⟨rfl, rfl⟩

/-- C5: `IPPResponse::parse_attribute` does not cap length fields at the
remaining input.  A name-length field of `0xFFFF` is read as the `i16`
value −1, cast `as usize` to 2^64−1, and used as the size of a
`vec![0u8; n]` allocation, which panics (capacity overflow) instead of
the decode failing with an error — both directly and through
`read_from_stream` on a full response stream. -/
theorem c5_parse_attribute_oversized_length_bug :
    usize_of_i16 (i16_of_bytes 0xFF 0xFF) = 2 ^ 64 - 1 ∧
    parse_attribute [0xFF, 0xFF] .Integer = POutcome.crash ∧
    read_from_stream [1, 1, 0, 0, 0, 0, 0, 1, 0x01, 0x21, 0xFF, 0xFF] = POutcome.crash :=
  ⟨by decide, rfl, rfl⟩

/-- C6 counterexample: a `MemberAttrName` immediately followed by an
`EndCollection` attribute is not rejected as a protocol error by
`IPPResponse::parse_collection`. -/
theorem c6_member_without_value_not_rejected :
    parse_collection member_then_end_bytes ≠ POutcome.err IPPError.protocolError := by
  intro h
  rw [show parse_collection member_then_end_bytes =
    POutcome.ok ([([0x6b], AttributeValue.EndCollection)], []) from rfl] at h
  exact POutcome.noConfusion h

/-- C6 amended: when a `MemberAttrName` is immediately followed by an
`EndCollection` attribute, the decoder parses the `EndCollection`
attribute as the member's value and binds the member name to the
`EndCollection` sentinel; the collection then continues until the next
`EndCollection`. -/
theorem c6_member_without_value_amended :
    parse_collection member_then_end_bytes =
      POutcome.ok ([([0x6b], AttributeValue.EndCollection)], []) := rfl

/-- C7: feeding the 8×8 sample image of the `encode_image` test through
`ImageEncoder::write_row` does not produce the byte sequence the test
expects.  Because the row-repeat branch is skipped on the last row
(`written_rows + 1 == height`), the encoder flushes the first red row as
a band with repeat byte 0x00 and leaves the final red row pending, so
the output ends `00 07 FF 00 00` while the test (and the claim) expects
`01 07 FF 00 00`. -/
theorem c7_encode_image_diverges_from_test :
    iter_rows (ImageEncoder.new 8 8) sample_image_rows =
      POutcome.ok (⟨8, 8, some (List.replicate 8 ⟨255, 0, 0⟩), 8, 0⟩,
        encode_image_actual) ∧
    encode_image_actual.drop 82 = [0x00, 0x07, 0xFF, 0x00, 0x00] ∧
    encode_image_expected.drop 82 = [0x01, 0x07, 0xFF, 0x00, 0x00] ∧
    encode_image_actual ≠ encode_image_expected :=
  ⟨by decide, by decide, by decide, by decide⟩

/-- C8 counterexample: on the 200-pixel all-distinct scanline of the
source's own `encode_row_long_diff_pixels` test, the encoder emits 602
bytes, exceeding the claimed bound `1 + 3 × width = 601`. -/
theorem c8_rle_length_bound_violated :
    rle_row200.length = 200 ∧
    encoded_len rle_row200 = 602 ∧
    ¬ encoded_len rle_row200 ≤ 1 + 3 * 200 :=
  ⟨by decide, by decide, by decide⟩

/-- C8 amended: the output of `ImageEncoder::do_encode_row` (excluding
the band-repeat byte) is at most `4 × width` bytes: every run packet
spends 4 bytes on at least one pixel and every literal packet spends
`1 + 3k` bytes on `k` pixels.  The claimed `1 + 3 × width` bound fails
(see the counterexample). -/
theorem c8_encoded_length_le_four_width (row : List SrgbColor) (bytes : List Nat)
    (h : do_encode_row row = POutcome.ok bytes) :
    bytes.length ≤ 4 * row.length := by
  unfold do_encode_row at h
  by_cases he : row.isEmpty
  · rw [if_pos he] at h; exact absurd h (by simp)
  · rw [if_neg he] at h
    have := emit_row_len (row.length + 1) row (comm_list row) 0 bytes h
    omega

/-- C8 witness: the amended bound applied to a one-pixel row. -/
theorem c8_encoded_length_le_four_width_witness :
    ([0, 0, 0, 0] : List Nat).length ≤ 4 * ([⟨0, 0, 0⟩] : List SrgbColor).length :=
  c8_encoded_length_le_four_width [⟨0, 0, 0⟩] [0, 0, 0, 0] (by decide)

/-- C9: in `IPPRequest::write_attribute_group`, an attribute whose value
is a `CollectionAttribute` or a `VectorAttribute` contributes no bytes
at all (no tag, name, length or value), and the group encoding is as if
the attribute were absent; writing to an in-memory buffer cannot fail,
so the function still returns `Ok`. -/
theorem c9_collection_vector_encode_nothing :
    (∀ (name : List Nat) (entries : List (List Nat × AttributeValue)),
      encode_attribute name (.CollectionAttribute entries) = []) ∧
    (∀ (name : List Nat) (vals : List AttributeValue),
      encode_attribute name (.VectorAttribute vals) = []) ∧
    (∀ (t : DelimiterOrValueTag) (pre post : List (List Nat × AttributeValue))
      (name : List Nat) (entries : List (List Nat × AttributeValue)),
      write_attribute_group [(t, pre ++ (name, .CollectionAttribute entries) :: post)] =
        write_attribute_group [(t, pre ++ post)]) ∧
    (∀ (t : DelimiterOrValueTag) (pre post : List (List Nat × AttributeValue))
      (name : List Nat) (vals : List AttributeValue),
      write_attribute_group [(t, pre ++ (name, .VectorAttribute vals) :: post)] =
        write_attribute_group [(t, pre ++ post)]) := by
  refine ⟨fun _ _ => rfl, fun _ _ => rfl, ?_, ?_⟩
  · intro t pre post name entries
    simp [write_attribute_group, encode_attribute]
  · intro t pre post name vals
    simp [write_attribute_group, encode_attribute]

/-- C10 counterexample: with width 1 and height 300, feeding 257 copies
of the same in-contract one-pixel row panics — the 256th increment of
the `u8` band-repeat counter `comm_rows` overflows (debug profile) —
although every row has the configured width, fewer than `height` rows
were written, and no row is empty. -/
theorem c10_comm_rows_overflow :
    iter_rows (ImageEncoder.new 1 300) (List.replicate 257 [⟨0, 0, 0⟩]) =
      POutcome.crash := by decide

/-- C10 amended: `ImageEncoder::write_row` panics when the row length
differs from the configured width, and when `height` rows have already
been accepted; `ImageEncoder::do_encode_row` panics on an empty row.
For in-contract calls (row length = width > 0, fewer than `height` rows
written, stored previous row of the right width) no panic is reachable
provided additionally `comm_rows < 255` — the claim's unconditional
no-panic statement fails because the `u8` counter overflows on the
256th consecutive duplicate row (see the counterexample). -/
theorem c10_write_row_contract :
    (∀ (s : ImageEncoder) (row : List SrgbColor),
      row.length ≠ s.width → write_row s row = POutcome.crash) ∧
    (∀ (s : ImageEncoder) (row : List SrgbColor),
      row.length = s.width → s.height ≤ s.written_rows →
      write_row s row = POutcome.crash) ∧
    do_encode_row [] = POutcome.crash ∧
    (∀ (s : ImageEncoder) (row : List SrgbColor),
      (∀ p, s.prev_row = some p → p.length = s.width) →
      row.length = s.width → 0 < s.width → s.written_rows < s.height →
      s.comm_rows < 255 →
      ∃ s2 bytes, write_row s row = POutcome.ok (s2, bytes)) := by
  refine ⟨?_, ?_, rfl, ?_⟩
  · intro s row h
    unfold write_row
    rw [if_pos h]
  · intro s row h1 h2
    unfold write_row
    rw [if_neg (by omega : ¬ row.length ≠ s.width), if_pos h2]
  · intro s row hprev hlen hw hwr hcomm
    unfold write_row
    rw [if_neg (by omega : ¬ row.length ≠ s.width),
      if_neg (by omega : ¬ s.height ≤ s.written_rows)]
    rcases hp : s.prev_row with _ | prev
    · exact ⟨_, _, rfl⟩
    · dsimp only
      have hplen : prev.length = s.width := hprev prev hp
      by_cases hd : s.written_rows + 1 ≠ s.height ∧ prev = row
      · rw [if_pos hd, if_neg (by omega : ¬ s.comm_rows = 255)]
        exact ⟨_, _, rfl⟩
      · rw [if_neg hd]
        obtain ⟨bs, hbs⟩ := do_encode_row_ok prev
          (fun hnil => by rw [hnil] at hplen; simp at hplen; omega)
        rw [hbs]
        exact ⟨_, _, rfl⟩

/-- C10 witness: the contract applied at concrete states — a wrong-width
row, a full encoder, and an in-contract call that succeeds. -/
theorem c10_write_row_contract_witness :
    write_row (ImageEncoder.new 2 2) [⟨0, 0, 0⟩] = POutcome.crash ∧
    write_row ⟨1, 1, none, 1, 0⟩ [⟨0, 0, 0⟩] = POutcome.crash ∧
    (∃ s2 bytes, write_row ⟨1, 2, some [⟨7, 7, 7⟩], 1, 0⟩ [⟨0, 0, 0⟩] =
      POutcome.ok (s2, bytes)) :=
  ⟨c10_write_row_contract.1 _ _ (by decide),
   c10_write_row_contract.2.1 _ _ (by decide) (by decide),
   c10_write_row_contract.2.2.2 _ _
     (fun p hp => by cases hp; decide) (by decide) (by decide) (by decide) (by decide)⟩

end IppPrint
